import Mathlib

/-!
Shallow embedding of the business-management system's scheduling and
calendar logic (services under `app/service/`, the team-join route under
`app/api/api_v1/teams.py`, and the calendar filter schema under
`app/schemas/calendar.py`), together with theorems settling the claims
about it.

Timestamps are modelled as wall-clock values (an integer, e.g. seconds
since the epoch) paired with an awareness flag mirroring Python's
`datetime.tzinfo is None` distinction; the only timezone occurring in the
code is UTC, and `replace(tzinfo=UTC)` keeps the wall-clock value, so an
aware timestamp's value is its UTC instant.  SQL comparisons on timestamp
columns compare the stored instants, i.e. the `val` field.
-/

namespace BMS

/-- A Python `datetime`: wall-clock instant `val` plus `aware = true` when
`tzinfo` is set (always UTC in this code base, so `val` is the UTC instant). -/
structure DT where
  val : Int
  aware : Bool
deriving Repr, DecidableEq

/-- Row of the `meetings` table together with its `meeting_participants`
association rows (`Meeting` model, `app/models/meeting.py`). -/
structure Meeting where
  id : Nat
  title : String
  description : Option String
  start_time : DT
  end_time : DT
  team_id : Nat
  organizer_id : Option Nat
  participant_ids : List Nat
deriving Repr, DecidableEq

/-- `TaskStatus` enum from `app/models/task.py`. -/
inductive TaskStatus where
  | open
  | in_progress
  | completed
deriving Repr, DecidableEq

/-- Row of the `tasks` table (`Task` model, `app/models/task.py`); `created_at`
comes from the declarative `Base`. -/
structure Task where
  id : Nat
  title : String
  status : TaskStatus
  deadline : Option DT
  team_id : Nat
  creator_id : Option Nat
  assignee_id : Option Nat
  created_at : DT
deriving Repr, DecidableEq

/-- Row of the `teams` table with its `user_team` association rows
(`Team` model, `app/models/team.py`). -/
structure Team where
  id : Nat
  name : String
  invite_code : String
  members : List Nat
deriving Repr, DecidableEq

/-- `UserRole` enum from `app/models/user.py`. -/
inductive UserRole where
  | user
  | manager
  | admin
deriving Repr, DecidableEq

/-- The authenticated principal as the routes see it (`current_user`). -/
structure UserRec where
  id : Nat
  role : UserRole
deriving Repr, DecidableEq

/-- The relational store: the tables the claims touch. -/
structure DB where
  teams : List Team
  meetings : List Meeting
  tasks : List Task
deriving Repr, DecidableEq

/-- The exception taxonomy of `app/errors/exceptions.py` restricted to the
constructors raised by the embedded operations. -/
inductive ApiError where
  | objectNotFound (objectName : String)
  | invalidMeetingParticipant
  | meetingTimeConflict
  | forbiddenAccess
  | alreadyInTeam
deriving Repr, DecidableEq

/-- `MeetingCreate` schema (`app/schemas/meeting.py`): the validated input of
`create_meeting`.  Its pydantic validator enforces `end_time > start_time`. -/
structure MeetingCreate where
  title : String
  description : Option String
  start_time : DT
  end_time : DT
  team_id : Nat
  participant_ids : List Nat
deriving Repr, DecidableEq

/-- `MeetingService._check_time_conflict`: true when some existing meeting has
a participant among `participant_ids` and satisfies
`Meeting.start_time < end_time AND Meeting.end_time > start_time`. -/
def check_time_conflict (meetings : List Meeting) (start_time end_time : DT)
    (participant_ids : List Nat) : Bool :=
  meetings.any fun m =>
    m.participant_ids.any (fun u => participant_ids.contains u) &&
    decide (m.start_time.val < end_time.val) &&
    decide (m.end_time.val > start_time.val)

/-- `MeetingService._validate_participants`: the ids among `participant_ids`
that are members of the team (the SQL join returns one `User` row per such
id).  The caller then compares the count with `participant_ids.length`. -/
def validate_participants (team : Team) (participant_ids : List Nat) : List Nat :=
  if participant_ids.isEmpty then []
  else participant_ids.filter (fun u => team.members.contains u)

/-- `MeetingService.create_meeting`.  `list({*participant_ids, organizer_id})`
builds the deduplicated effective participant set; Python's set iteration
order is unspecified, modelled by `List.dedup`.  `new_id` stands for the
autoincrement primary key of the inserted row. -/
def create_meeting (db : DB) (meeting_data : MeetingCreate) (organizer_id : Nat)
    (new_id : Nat) : Except ApiError (DB × Meeting) :=
  match db.teams.find? (fun t => t.id == meeting_data.team_id) with
  | none => .error (.objectNotFound "Team")
  | some team =>
    let all_participant_ids := (meeting_data.participant_ids ++ [organizer_id]).dedup
    let participants := validate_participants team all_participant_ids
    if participants.length ≠ all_participant_ids.length then
      .error .invalidMeetingParticipant
    else if check_time_conflict db.meetings meeting_data.start_time
        meeting_data.end_time all_participant_ids then
      .error .meetingTimeConflict
    else
      let meeting : Meeting :=
        { id := new_id
          title := meeting_data.title
          description := meeting_data.description
          start_time := meeting_data.start_time
          end_time := meeting_data.end_time
          team_id := meeting_data.team_id
          organizer_id := some organizer_id
          participant_ids := participants }
      .ok ({ db with meetings := db.meetings ++ [meeting] }, meeting)

/-- `MeetingService.get_meeting`: `NotFound` when the id is absent,
`Forbidden` unless the requester is a participant or the organizer. -/
def get_meeting (db : DB) (meeting_id user_id : Nat) : Except ApiError Meeting :=
  match db.meetings.find? (fun m => m.id == meeting_id) with
  | none => .error (.objectNotFound "Meeting")
  | some meeting =>
    if user_id ∉ meeting.participant_ids ∧ some user_id ≠ meeting.organizer_id then
      .error .forbiddenAccess
    else
      .ok meeting

/-- The `GET /meetings/{id}` route body: it passes only `current_user.id` to
the service, so the requester's role never reaches the access check. -/
def get_meeting_endpoint (db : DB) (meeting_id : Nat) (current_user : UserRec) :
    Except ApiError Meeting :=
  get_meeting db meeting_id current_user.id

/-- Gregorian leap-year rule used by Python's `calendar` module. -/
def isLeapYear (y : Nat) : Bool :=
  (y % 4 == 0 && y % 100 != 0) || y % 400 == 0

/-- `calendar.monthrange(y, m)[1]`: the number of days in month `m` of
year `y`. -/
def monthrange (y m : Nat) : Nat :=
  if m == 2 then (if isLeapYear y then 29 else 28)
  else if m == 4 || m == 6 || m == 9 || m == 11 then 30
  else 31

/-- A Python `date` in calendar form. -/
structure PyDate where
  year : Nat
  month : Nat
  day : Nat
deriving Repr, DecidableEq

/-- A UTC-aware `datetime` in calendar form (as produced by the period
helpers, which always pass `tzinfo=UTC`). -/
structure CalDateTime where
  year : Nat
  month : Nat
  day : Nat
  hour : Nat
  minute : Nat
  second : Nat
deriving Repr, DecidableEq

/-- `dt + timedelta(days=1)` on a valid calendar datetime: increment the day,
rolling over at the end of the month and at December 31. -/
def addOneDay (dt : CalDateTime) : CalDateTime :=
  if dt.day + 1 > monthrange dt.year dt.month then
    if dt.month == 12 then { dt with year := dt.year + 1, month := 1, day := 1 }
    else { dt with month := dt.month + 1, day := 1 }
  else { dt with day := dt.day + 1 }

/-- `CalendarService.get_period_month`: start of the month at midnight UTC,
and the last day of the month (via `monthrange`) plus one day. -/
def get_period_month (date_data : PyDate) : CalDateTime × CalDateTime :=
  let start : CalDateTime :=
    ⟨date_data.year, date_data.month, 1, 0, 0, 0⟩
  let days_count := monthrange date_data.year date_data.month
  (start, addOneDay { start with day := days_count })

/-- `ORDER BY start_time` comparison on `meetings` rows. -/
def startTimeLe (a b : Meeting) : Bool :=
  decide (a.start_time.val ≤ b.start_time.val)

/-- `CalendarService.get_meetings_for_period`: meetings where the user is a
participant and `start_time < end AND end_time >= start`, ordered by
`start_time`.  SQL leaves the order of equal keys unspecified; the model
realises it as a stable sort over the table's row order. -/
def get_meetings_for_period (meetings : List Meeting) (user_id : Nat)
    (start «end» : DT) : List Meeting :=
  (meetings.filter fun m =>
      m.participant_ids.contains user_id &&
      decide (m.start_time.val < «end».val) &&
      decide (m.end_time.val ≥ start.val)).mergeSort startTimeLe

/-- The WHERE clause of `CalendarService.get_tasks_for_period`: the user is
creator or assignee (SQL `=` on a NULL column is never true), and either the
deadline is set and falls in `[start, end)`, or the deadline is NULL and the
status differs from COMPLETED. -/
def task_in_period (t : Task) (user_id : Nat) (start «end» : DT) : Bool :=
  (t.creator_id == some user_id || t.assignee_id == some user_id) &&
  (match t.deadline with
   | some d => decide (d.val ≥ start.val) && decide (d.val < «end».val)
   | none => t.status != TaskStatus.completed)

/-- First `ORDER BY` key of `get_tasks_for_period`: the boolean expression
`Task.deadline IS NULL`, with SQL's `false < true` encoded as `0 < 1`. -/
def deadline_is_null_key (t : Task) : Nat :=
  if t.deadline.isNone then 1 else 0

/-- Second `ORDER BY` key: the `deadline` column.  Rows reaching a NULL here
all share the first key `1`, so they tie regardless of the value chosen. -/
def deadline_val_key (t : Task) : Int :=
  match t.deadline with
  | some d => d.val
  | none => 0

/-- The two-part `ORDER BY (deadline IS NULL), deadline` comparison. -/
def taskOrderLe (a b : Task) : Bool :=
  decide (deadline_is_null_key a < deadline_is_null_key b) ||
  (deadline_is_null_key a == deadline_is_null_key b &&
    decide (deadline_val_key a ≤ deadline_val_key b))

/-- `CalendarService.get_tasks_for_period`: filter then the two-part order;
ties are again modelled as stable over the table's row order. -/
def get_tasks_for_period (tasks : List Task) (user_id : Nat)
    (start «end» : DT) : List Task :=
  (tasks.filter fun t => task_in_period t user_id start «end»).mergeSort taskOrderLe

/-- A heterogeneous calendar event: `Task | Meeting`. -/
inductive Event where
  | task (t : Task)
  | meeting (m : Meeting)
deriving Repr, DecidableEq

/-- `CalendarService.get_event_start_time`: `deadline or created_at` for a
task, `start_time` for a meeting; a naive result is reinterpreted as UTC via
`replace(tzinfo=UTC)`, which keeps the wall-clock value. -/
def get_event_start_time (event : Event) : DT :=
  let dt : DT :=
    match event with
    | .task t => t.deadline.getD t.created_at
    | .meeting m => m.start_time
  if dt.aware then dt else { dt with aware := true }

/-- The comparison performed by `events.sort(key=self.get_event_start_time)`:
aware datetimes compare by their UTC instant. -/
def eventLe (a b : Event) : Bool :=
  decide ((get_event_start_time a).val ≤ (get_event_start_time b).val)

/-- `CalendarService.get_user_events_for_period`: concatenate the period's
meetings and tasks, then Python's stable `list.sort` keyed by
`get_event_start_time`. -/
def get_user_events_for_period (db : DB) (user_id : Nat)
    (start «end» : DT) : List Event :=
  let meetings := (get_meetings_for_period db.meetings user_id start «end»).map .meeting
  let tasks := (get_tasks_for_period db.tasks user_id start «end»).map .task
  (meetings ++ tasks).mergeSort eventLe

/-- The `POST /teams/join` route body (`join_team` in
`app/api/api_v1/teams.py`): look the team up by invite code, reject when the
current user is already in that team's member list, otherwise append the user
to it.  `invite_code` is unique, so at most one row matches. -/
def join_team (teams : List Team) (current_user : UserRec) (invite_code : String) :
    Except ApiError (List Team) :=
  match teams.find? (fun t => t.invite_code == invite_code) with
  | none => .error (.objectNotFound "Team")
  | some team =>
    if team.members.contains current_user.id then
      .error .alreadyInTeam
    else
      .ok (teams.map fun t =>
        if t.id == team.id then { t with members := t.members ++ [current_user.id] } else t)

/-- `DateFilter` schema (`app/schemas/calendar.py`). -/
structure DateFilter where
  day : Option PyDate
  month : Option PyDate
  start : Option PyDate
  «end» : Option PyDate
deriving Repr, DecidableEq

/-- `DateFilter.validate_choice`: `bool(x)` on an optional `date` is true
exactly when the field is present (a `date` object is always truthy), and the
third option counts only when `start` and `end` are both present. -/
def DateFilter.validate_choice (f : DateFilter) : Except String DateFilter :=
  let filled := [f.day.isSome, f.month.isSome, f.start.isSome && f.«end».isSome]
  if filled.count true ≠ 1 then
    .error "Specify exactly one option: day, month, or period (start + end)"
  else
    .ok f

/-- `DateFilter.get_period_type`: `day` wins, then `month`, else `range`. -/
def DateFilter.get_period_type (f : DateFilter) : String :=
  if f.day.isSome then "day"
  else if f.month.isSome then "month"
  else "range"

/-! ### Concrete fixtures used by witnesses -/

/-- A store with one meeting, `[10, 20)`, organized by user 1 who is its
sole participant, in team 1 whose members are users 1 and 2. -/
def meetingF : Meeting :=
  ⟨1, "m", none, ⟨10, true⟩, ⟨20, true⟩, 1, some 1, [1]⟩

def dbF : DB :=
  { teams := [⟨1, "T", "t", [1, 2]⟩]
    meetings := [meetingF]
    tasks := [] }

/-- Creation request for `[20, 30)` in team 1 with participant list `[2]`
(the organizer deliberately omitted): touches `meetingF` at the boundary. -/
def mdTouchF : MeetingCreate :=
  ⟨"b", none, ⟨20, true⟩, ⟨30, true⟩, 1, [2]⟩

/-- An undated in-progress task created by user 1. -/
def taskNoDlF : Task :=
  ⟨1, "nodl", .in_progress, none, 1, some 1, none, ⟨0, true⟩⟩

/-- An undated completed task created by user 1. -/
def taskDoneF : Task :=
  ⟨2, "done", .completed, none, 1, some 1, none, ⟨0, true⟩⟩

/-- A task created by user 1 with deadline 50. -/
def taskDlF : Task :=
  ⟨3, "dl", .open, some ⟨50, true⟩, 1, some 1, none, ⟨0, true⟩⟩

/-- A task created by user 1 with deadline 150, outside `[0, 100)`. -/
def taskLateF : Task :=
  ⟨4, "late", .open, some ⟨150, true⟩, 1, some 1, none, ⟨0, true⟩⟩

/-- `tasks` table fixture. -/
def tasksF : List Task := [taskNoDlF, taskDoneF, taskDlF, taskLateF]

/-- Store with one meeting and one dated task for the merged-feed witness. -/
def dbEvF : DB :=
  { teams := [⟨1, "T", "t", [1, 2]⟩]
    meetings := [meetingF]
    tasks := [taskDlF] }

/-- The claim's effective-start derivation, written from the specification's
words for comparison with the code's `get_event_start_time`: a task's
deadline when set, else its creation time; a meeting's start time; a naive
timestamp is read as UTC, i.e. its wall-clock value is used unchanged. -/
def spec_effective_start (ev : Event) : Int :=
  match ev with
  | .task t =>
    match t.deadline with
    | some d => d.val
    | none => t.created_at.val
  | .meeting m => m.start_time.val

/-! ### Helper lemmas -/

theorem mem_effective_set (pids : List Nat) (org u : Nat) :
    u ∈ (pids ++ [org]).dedup ↔ u ∈ pids ∨ u = org := by
  simp [List.mem_dedup]

theorem validate_participants_eq_of_members (team : Team) (pids : List Nat)
    (h : ∀ u ∈ pids, u ∈ team.members) :
    validate_participants team pids = pids := by
  unfold validate_participants
  split
  · next hemp => exact (List.isEmpty_iff.mp hemp).symm
  · exact List.filter_eq_self.mpr fun a ha => by simpa using h a ha

theorem check_time_conflict_iff (meetings : List Meeting) (s e : DT)
    (pids : List Nat) :
    check_time_conflict meetings s e pids = true ↔
      ∃ m ∈ meetings, (∃ u ∈ m.participant_ids, u ∈ pids) ∧
        m.start_time.val < e.val ∧ m.end_time.val > s.val := by
  simp [check_time_conflict, List.any_eq_true, and_assoc]

theorem startTimeLe_trans :
    ∀ a b c : Meeting, startTimeLe a b → startTimeLe b c → startTimeLe a c := by
  intro a b c h1 h2
  simp [startTimeLe] at h1 h2 ⊢
  omega

theorem startTimeLe_total : ∀ a b : Meeting, startTimeLe a b || startTimeLe b a := by
  intro a b
  simp [startTimeLe]
  omega

theorem taskOrderLe_trans :
    ∀ a b c : Task, taskOrderLe a b → taskOrderLe b c → taskOrderLe a c := by
  intro a b c h1 h2
  simp [taskOrderLe] at h1 h2 ⊢
  omega

theorem taskOrderLe_total : ∀ a b : Task, taskOrderLe a b || taskOrderLe b a := by
  intro a b
  simp [taskOrderLe]
  omega

theorem eventLe_trans :
    ∀ a b c : Event, eventLe a b → eventLe b c → eventLe a c := by
  intro a b c h1 h2
  simp [eventLe] at h1 h2 ⊢
  omega

theorem eventLe_total : ∀ a b : Event, eventLe a b || eventLe b a := by
  intro a b
  simp [eventLe]
  omega

theorem get_event_start_time_aware_val (ev : Event) :
    (get_event_start_time ev).aware = true ∧
    (get_event_start_time ev).val = spec_effective_start ev := by
  have key : ∀ dt : DT,
      (if dt.aware then dt else { dt with aware := true }).aware = true ∧
      (if dt.aware then dt else { dt with aware := true }).val = dt.val := by
    intro dt
    by_cases h : dt.aware <;> simp [h]
  cases ev with
  | task t =>
    rcases hdl : t.deadline with _ | d <;>
      simp [get_event_start_time, spec_effective_start, hdl, key]
  | meeting m =>
    simp [get_event_start_time, spec_effective_start, key]

/-! ### Claim theorems -/

/-- C7: `get_period_month` maps any date to the half-open interval from the
first day of its month at midnight UTC to the first day of the following
month at midnight UTC, with December rolling over to January of the next
year. -/
theorem get_period_month_spec (y m d : Nat) (h1 : 1 ≤ m) (h2 : m ≤ 12) :
    get_period_month ⟨y, m, d⟩ =
      (⟨y, m, 1, 0, 0, 0⟩,
       if m = 12 then ⟨y + 1, 1, 1, 0, 0, 0⟩ else ⟨y, m + 1, 1, 0, 0, 0⟩) := by
  unfold get_period_month addOneDay
  by_cases hm : m = 12
  · subst hm; simp
  · simp [hm]

/-- C7 witness: the two examples named by the claim, February 2024 (leap
year, variable month length) and December 2024 (year rollover). -/
theorem get_period_month_spec_witness :
    get_period_month ⟨2024, 2, 15⟩ =
      (⟨2024, 2, 1, 0, 0, 0⟩, ⟨2024, 3, 1, 0, 0, 0⟩) ∧
    get_period_month ⟨2024, 12, 15⟩ =
      (⟨2024, 12, 1, 0, 0, 0⟩, ⟨2025, 1, 1, 0, 0, 0⟩) := by
  constructor
  · have h := get_period_month_spec 2024 2 15 (by decide) (by decide)
    simpa using h
  · have h := get_period_month_spec 2024 12 15 (by decide) (by decide)
    simpa using h

/-- C10: a start/end pair counts as one supplied option only when both
fields are present.  A lone `start` (or lone `end`) with nothing else is
rejected as zero options, while `day` (or `month`) together with a dangling
`start` or `end` passes validation and resolves to day (resp. month) mode. -/
theorem dateFilter_choice_spec (d mo s e : PyDate) :
    DateFilter.validate_choice ⟨none, none, some s, none⟩ =
      .error "Specify exactly one option: day, month, or period (start + end)" ∧
    DateFilter.validate_choice ⟨none, none, none, some e⟩ =
      .error "Specify exactly one option: day, month, or period (start + end)" ∧
    DateFilter.validate_choice ⟨some d, none, some s, none⟩ =
      .ok ⟨some d, none, some s, none⟩ ∧
    DateFilter.get_period_type ⟨some d, none, some s, none⟩ = "day" ∧
    DateFilter.validate_choice ⟨some d, none, none, some e⟩ =
      .ok ⟨some d, none, none, some e⟩ ∧
    DateFilter.validate_choice ⟨none, some mo, some s, none⟩ =
      .ok ⟨none, some mo, some s, none⟩ ∧
    DateFilter.get_period_type ⟨none, some mo, some s, none⟩ = "month" ∧
    DateFilter.validate_choice ⟨none, some mo, none, some e⟩ =
      .ok ⟨none, some mo, none, some e⟩ := by
  refine ⟨rfl, rfl, rfl, rfl, rfl, rfl, rfl, rfl⟩

/-- C10 witness: the instance of `dateFilter_choice_spec` at concrete dates
(a lone 2024-01-01 start is rejected; day 2024-01-15 with a dangling start
resolves to day mode). -/
theorem dateFilter_choice_spec_witness :
    DateFilter.validate_choice ⟨none, none, some ⟨2024, 1, 1⟩, none⟩ =
      .error "Specify exactly one option: day, month, or period (start + end)" ∧
    DateFilter.validate_choice ⟨some ⟨2024, 1, 15⟩, none, some ⟨2024, 1, 1⟩, none⟩ =
      .ok ⟨some ⟨2024, 1, 15⟩, none, some ⟨2024, 1, 1⟩, none⟩ ∧
    DateFilter.get_period_type ⟨some ⟨2024, 1, 15⟩, none, some ⟨2024, 1, 1⟩, none⟩ = "day" := by
  have h := dateFilter_choice_spec ⟨2024, 1, 15⟩ ⟨2024, 2, 1⟩ ⟨2024, 1, 1⟩ ⟨2024, 1, 31⟩
  exact ⟨h.1, h.2.2.1, h.2.2.2.1⟩

/-- C5: `get_meetings_for_period` returns exactly the meetings in which the
user participates and which satisfy `start_time < end AND end_time ≥ start`
(inclusive at the period's start boundary, exclusive at its end), sorted
ascending by `start_time`. -/
theorem get_meetings_for_period_spec (meetings : List Meeting) (uid : Nat)
    (s e : DT) :
    (∀ m, m ∈ get_meetings_for_period meetings uid s e ↔
      (m ∈ meetings ∧ uid ∈ m.participant_ids ∧
        m.start_time.val < e.val ∧ m.end_time.val ≥ s.val)) ∧
    (get_meetings_for_period meetings uid s e).Perm
      (meetings.filter fun m =>
        m.participant_ids.contains uid &&
        decide (m.start_time.val < e.val) && decide (m.end_time.val ≥ s.val)) ∧
    (get_meetings_for_period meetings uid s e).Pairwise
      (fun a b => a.start_time.val ≤ b.start_time.val) := by
  refine ⟨?_, List.mergeSort_perm _ _, ?_⟩
  · intro m
    simp [get_meetings_for_period, List.mem_filter, and_assoc]
  · exact List.Pairwise.imp
      (fun h => by simpa [startTimeLe] using h)
      (List.sorted_mergeSort startTimeLe_trans startTimeLe_total _)

/-- C5 witness: `meetingF = [10, 20)` is returned for user 1 and the period
`[20, 100)` (its end touches the period start, `end_time ≥ start`), but not
for user 2, who is not a participant. -/
theorem get_meetings_for_period_spec_witness :
    meetingF ∈ get_meetings_for_period [meetingF] 1 ⟨20, true⟩ ⟨100, true⟩ ∧
    meetingF ∉ get_meetings_for_period [meetingF] 2 ⟨20, true⟩ ⟨100, true⟩ := by
  constructor
  · exact ((get_meetings_for_period_spec [meetingF] 1 ⟨20, true⟩ ⟨100, true⟩).1
      meetingF).mpr (by decide)
  · intro hmem
    exact absurd (((get_meetings_for_period_spec [meetingF] 2 ⟨20, true⟩ ⟨100, true⟩).1
      meetingF).mp hmem) (by decide)

/-- C8: a stored task is returned by `get_tasks_for_period` for a user and
period iff the user is its creator or assignee and either the task has no
deadline and is not COMPLETED (undated open work surfaces in every period),
or its deadline falls inside `[start, end)`. -/
theorem get_tasks_for_period_membership (tasks : List Task) (uid : Nat)
    (s e : DT) (t : Task) (ht : t ∈ tasks) :
    (t.deadline = none →
      (t ∈ get_tasks_for_period tasks uid s e ↔
        ((t.creator_id = some uid ∨ t.assignee_id = some uid) ∧
          t.status ≠ .completed))) ∧
    (∀ d, t.deadline = some d →
      (t ∈ get_tasks_for_period tasks uid s e ↔
        ((t.creator_id = some uid ∨ t.assignee_id = some uid) ∧
          s.val ≤ d.val ∧ d.val < e.val))) := by
  constructor
  · intro hdl
    simp [get_tasks_for_period, List.mem_filter, task_in_period, ht, hdl]
  · intro d hdl
    simp [get_tasks_for_period, List.mem_filter, task_in_period, ht, hdl, and_assoc]

/-- C8 witness: over the four-task fixture and period `[0, 100)` for
user 1, the undated in-progress task is returned, the undated completed
task is not, the task with deadline 50 is returned, and the task with
deadline 150 is not. -/
theorem get_tasks_for_period_membership_witness :
    taskNoDlF ∈ get_tasks_for_period tasksF 1 ⟨0, true⟩ ⟨100, true⟩ ∧
    taskDoneF ∉ get_tasks_for_period tasksF 1 ⟨0, true⟩ ⟨100, true⟩ ∧
    taskDlF ∈ get_tasks_for_period tasksF 1 ⟨0, true⟩ ⟨100, true⟩ ∧
    taskLateF ∉ get_tasks_for_period tasksF 1 ⟨0, true⟩ ⟨100, true⟩ := by
  refine ⟨?_, fun hmem => ?_, ?_, fun hmem => ?_⟩
  · exact ((get_tasks_for_period_membership tasksF 1 ⟨0, true⟩ ⟨100, true⟩
      taskNoDlF (by decide)).1 rfl).mpr (by decide)
  · exact absurd (((get_tasks_for_period_membership tasksF 1 ⟨0, true⟩ ⟨100, true⟩
      taskDoneF (by decide)).1 rfl).mp hmem) (by decide)
  · exact (((get_tasks_for_period_membership tasksF 1 ⟨0, true⟩ ⟨100, true⟩
      taskDlF (by decide)).2 ⟨50, true⟩ rfl)).mpr (by decide)
  · exact absurd (((get_tasks_for_period_membership tasksF 1 ⟨0, true⟩ ⟨100, true⟩
      taskLateF (by decide)).2 ⟨150, true⟩ rfl).mp hmem) (by decide)

/-- C6: the merged feed is a permutation of the period's meetings followed
by its tasks, sorted ascending by the effective start time stated in the
specification (deadline-else-created_at for tasks, start_time for meetings,
naive values read as UTC), and the sort is stable: any correctly ordered
pair of the concatenation survives as a pair of the output.  The code's
`get_event_start_time` always yields an aware timestamp whose value is the
specification's effective start. -/
theorem get_user_events_for_period_spec (db : DB) (uid : Nat) (s e : DT) :
    (∀ ev : Event, (get_event_start_time ev).aware = true ∧
      (get_event_start_time ev).val = spec_effective_start ev) ∧
    (get_user_events_for_period db uid s e).Perm
      ((get_meetings_for_period db.meetings uid s e).map .meeting ++
       (get_tasks_for_period db.tasks uid s e).map .task) ∧
    (get_user_events_for_period db uid s e).Pairwise
      (fun a b => spec_effective_start a ≤ spec_effective_start b) ∧
    ∀ a b : Event,
      [a, b].Sublist
        ((get_meetings_for_period db.meetings uid s e).map .meeting ++
         (get_tasks_for_period db.tasks uid s e).map .task) →
      spec_effective_start a ≤ spec_effective_start b →
      [a, b].Sublist (get_user_events_for_period db uid s e) := by
  refine ⟨get_event_start_time_aware_val, List.mergeSort_perm _ _, ?_, ?_⟩
  · exact List.Pairwise.imp
      (fun h => by
        have h2 := h
        simp only [eventLe, decide_eq_true_eq] at h2
        rwa [(get_event_start_time_aware_val _).2,
          (get_event_start_time_aware_val _).2] at h2)
      (List.sorted_mergeSort eventLe_trans eventLe_total _)
  · intro a b hsub hle
    apply List.pair_sublist_mergeSort eventLe_trans eventLe_total ?_ hsub
    simp only [eventLe, decide_eq_true_eq]
    rw [(get_event_start_time_aware_val a).2, (get_event_start_time_aware_val b).2]
    exact hle

/-- C6 witness: with one meeting starting at 10 and one task with deadline
50 in the period, the correctly ordered pair (meeting, task) of the
concatenation survives into the merged output. -/
theorem get_user_events_for_period_spec_witness :
    [Event.meeting meetingF, Event.task taskDlF].Sublist
      (get_user_events_for_period dbEvF 1 ⟨0, true⟩ ⟨100, true⟩) := by
  have hbase :
      (get_meetings_for_period dbEvF.meetings 1 ⟨0, true⟩ ⟨100, true⟩).map Event.meeting ++
        (get_tasks_for_period dbEvF.tasks 1 ⟨0, true⟩ ⟨100, true⟩).map Event.task =
      [Event.meeting meetingF, Event.task taskDlF] := by
    simp [get_meetings_for_period, get_tasks_for_period, task_in_period,
      dbEvF, meetingF, taskDlF]
  exact (get_user_events_for_period_spec dbEvF 1 ⟨0, true⟩ ⟨100, true⟩).2.2.2
    (Event.meeting meetingF) (Event.task taskDlF)
    (hbase ▸ List.Sublist.refl _) (by decide)

/-- C3 (divergence witness): `ORDER BY (deadline IS NULL), deadline` sorts
the boolean first key ascending, i.e. `false` (deadline present) before
`true` (deadline NULL), so a task **with** a deadline is returned before a
task **without** one — the opposite of the documented order.  Concretely:
user 1 created task 1 (no deadline, in progress) and task 2 (deadline 50);
the period query returns them as `[task 2, task 1]`. -/
theorem get_tasks_for_period_orders_deadline_first :
    get_tasks_for_period
      [⟨1, "t1", .in_progress, none, 1, some 1, none, ⟨0, true⟩⟩,
       ⟨2, "t2", .open, some ⟨50, true⟩, 1, some 1, none, ⟨0, true⟩⟩]
      1 ⟨0, true⟩ ⟨100, true⟩ =
      [⟨2, "t2", .open, some ⟨50, true⟩, 1, some 1, none, ⟨0, true⟩⟩,
       ⟨1, "t1", .in_progress, none, 1, some 1, none, ⟨0, true⟩⟩] := by
  simp [get_tasks_for_period, task_in_period, taskOrderLe, deadline_is_null_key,
    deadline_val_key, List.mergeSort, List.merge]

/-- C2: whenever `create_meeting` succeeds, the persisted participant list
is duplicate-free and holds exactly the union of the requested
`participant_ids` and the organizer; in particular the organizer is always a
participant even when omitted from the request. -/
theorem create_meeting_participant_set (db : DB) (md : MeetingCreate)
    (org nid : Nat) (db2 : DB) (m : Meeting)
    (h : create_meeting db md org nid = .ok (db2, m)) :
    m.participant_ids.Nodup ∧
    (∀ u, u ∈ m.participant_ids ↔ (u ∈ md.participant_ids ∨ u = org)) ∧
    org ∈ m.participant_ids := by
  unfold create_meeting at h
  rcases hfind : db.teams.find? (fun t => t.id == md.team_id) with _ | team
  · rw [hfind] at h; exact absurd h (by simp)
  rw [hfind] at h
  simp only at h
  split at h
  · exact absurd h (by simp)
  split at h
  · exact absurd h (by simp)
  next hlen _ =>
  obtain ⟨-, hm⟩ := Prod.mk.injEq .. ▸ (Except.ok.inj h)
  have hall : ∀ u ∈ (md.participant_ids ++ [org]).dedup, u ∈ team.members := by
    intro u hu
    have hlen2 : (validate_participants team ((md.participant_ids ++ [org]).dedup)).length =
        ((md.participant_ids ++ [org]).dedup).length := by omega
    have hne : ¬ ((md.participant_ids ++ [org]).dedup).isEmpty := by
      have : org ∈ (md.participant_ids ++ [org]).dedup :=
        (mem_effective_set md.participant_ids org org).mpr (Or.inr rfl)
      simp only [List.isEmpty_iff]
      intro hempty
      rw [hempty] at this
      exact absurd this (by simp)
    unfold validate_participants at hlen2
    rw [if_neg hne] at hlen2
    have := List.filter_length_eq_length.mp hlen2 u hu
    simpa using this
  have hvp := validate_participants_eq_of_members team
    ((md.participant_ids ++ [org]).dedup) hall
  have hpids : m.participant_ids = (md.participant_ids ++ [org]).dedup := by
    rw [← hm]; exact hvp
  refine ⟨?_, ?_, ?_⟩
  · rw [hpids]; exact List.nodup_dedup _
  · intro u; rw [hpids]; exact mem_effective_set md.participant_ids org u
  · rw [hpids]; exact (mem_effective_set md.participant_ids org org).mpr (Or.inr rfl)

/-- C2 witness: creating `[20, 30)` in team 1 with participant list `[2]`
and organizer 1 persists the participant set `[2, 1]`, which contains the
omitted organizer and is duplicate-free. -/
theorem create_meeting_participant_set_witness :
    create_meeting dbF mdTouchF 1 2 =
      .ok ({ teams := [⟨1, "T", "t", [1, 2]⟩]
             meetings := [meetingF, ⟨2, "b", none, ⟨20, true⟩, ⟨30, true⟩, 1, some 1, [2, 1]⟩]
             tasks := [] },
           ⟨2, "b", none, ⟨20, true⟩, ⟨30, true⟩, 1, some 1, [2, 1]⟩) ∧
    1 ∈ (Meeting.mk 2 "b" none ⟨20, true⟩ ⟨30, true⟩ 1 (some 1) [2, 1]).participant_ids ∧
    (Meeting.mk 2 "b" none ⟨20, true⟩ ⟨30, true⟩ 1 (some 1) [2, 1]).participant_ids.Nodup := by
  have h := create_meeting_participant_set dbF mdTouchF 1 2
    { teams := [⟨1, "T", "t", [1, 2]⟩]
      meetings := [meetingF, ⟨2, "b", none, ⟨20, true⟩, ⟨30, true⟩, 1, some 1, [2, 1]⟩]
      tasks := [] }
    ⟨2, "b", none, ⟨20, true⟩, ⟨30, true⟩, 1, some 1, [2, 1]⟩ rfl
  exact ⟨rfl, h.2.2, h.1⟩

/-- C1: with the target team present and every effective participant a team
member, `create_meeting` fails with `TimeConflict` exactly when some
existing meeting shares a participant with the effective set
(`participant_ids` plus the organizer) and satisfies the half-open overlap
test `existing.start < end_time AND existing.end > start_time`; when no such
meeting exists — in particular for back-to-back meetings touching at a
boundary — creation succeeds. -/
theorem create_meeting_time_conflict_iff (db : DB) (md : MeetingCreate)
    (org nid : Nat) (team : Team)
    (hteam : db.teams.find? (fun t => t.id == md.team_id) = some team)
    (hmem : ∀ u ∈ (md.participant_ids ++ [org]).dedup, u ∈ team.members) :
    (create_meeting db md org nid = .error .meetingTimeConflict ↔
      ∃ ex ∈ db.meetings,
        (∃ u ∈ ex.participant_ids, u ∈ md.participant_ids ∨ u = org) ∧
        ex.start_time.val < md.end_time.val ∧ ex.end_time.val > md.start_time.val) ∧
    ((¬ ∃ ex ∈ db.meetings,
        (∃ u ∈ ex.participant_ids, u ∈ md.participant_ids ∨ u = org) ∧
        ex.start_time.val < md.end_time.val ∧ ex.end_time.val > md.start_time.val) →
      ∃ db2 meeting, create_meeting db md org nid = .ok (db2, meeting)) := by
  have hvp := validate_participants_eq_of_members team
    ((md.participant_ids ++ [org]).dedup) hmem
  have hconf : check_time_conflict db.meetings md.start_time md.end_time
      ((md.participant_ids ++ [org]).dedup) = true ↔
      ∃ ex ∈ db.meetings,
        (∃ u ∈ ex.participant_ids, u ∈ md.participant_ids ∨ u = org) ∧
        ex.start_time.val < md.end_time.val ∧ ex.end_time.val > md.start_time.val := by
    rw [check_time_conflict_iff]
    constructor
    · rintro ⟨ex, hex, ⟨u, hu, hupid⟩, hlt, hgt⟩
      exact ⟨ex, hex, ⟨u, hu, (mem_effective_set md.participant_ids org u).mp hupid⟩, hlt, hgt⟩
    · rintro ⟨ex, hex, ⟨u, hu, hupid⟩, hlt, hgt⟩
      exact ⟨ex, hex, ⟨u, hu, (mem_effective_set md.participant_ids org u).mpr hupid⟩, hlt, hgt⟩
  unfold create_meeting
  rw [hteam]
  simp only [hvp, ne_eq, not_true_eq_false, if_false, reduceIte]
  constructor
  · by_cases hc : check_time_conflict db.meetings md.start_time md.end_time
        ((md.participant_ids ++ [org]).dedup) = true
    · simp [hc, hconf.mp hc]
    · rw [if_neg (by simpa using hc)]
      simp only [hconf] at hc
      simp [hc]
  · intro hnc
    rw [if_neg (by rw [← hconf] at hnc; simpa using hnc)]
    exact ⟨_, _, rfl⟩

/-- C1 witness: against a store holding `meetingF = [10, 20)` for user 1,
the touching request `[20, 30)` with effective set `{2, 1}` does not raise
`TimeConflict` (it succeeds), while the overlapping request `[15, 25)` does. -/
theorem create_meeting_time_conflict_iff_witness :
    (∃ db2 meeting, create_meeting dbF mdTouchF 1 2 = .ok (db2, meeting)) ∧
    create_meeting dbF ⟨"c", none, ⟨15, true⟩, ⟨25, true⟩, 1, [2]⟩ 1 2 =
      .error .meetingTimeConflict := by
  constructor
  · exact (create_meeting_time_conflict_iff dbF mdTouchF 1 2 ⟨1, "T", "t", [1, 2]⟩
      rfl (by decide)).2 (by decide)
  · exact (create_meeting_time_conflict_iff dbF ⟨"c", none, ⟨15, true⟩, ⟨25, true⟩, 1, [2]⟩
      1 2 ⟨1, "T", "t", [1, 2]⟩ rfl (by decide)).1.mpr (by decide)

/-- C9: `get_meeting` fails `NotFound` when the id is absent, otherwise
fails `Forbidden` exactly when the requester is neither a participant nor
the organizer, succeeds otherwise, and its outcome never depends on the
requester's role (in particular an ADMIN who is neither participant nor
organizer is denied like anyone else). -/
theorem get_meeting_access_spec (db : DB) (meeting_id : Nat) (u : UserRec) :
    (db.meetings.find? (fun m => m.id == meeting_id) = none →
      get_meeting_endpoint db meeting_id u = .error (.objectNotFound "Meeting")) ∧
    (∀ meeting, db.meetings.find? (fun m => m.id == meeting_id) = some meeting →
      (get_meeting_endpoint db meeting_id u = .error .forbiddenAccess ↔
        (u.id ∉ meeting.participant_ids ∧ some u.id ≠ meeting.organizer_id)) ∧
      (u.id ∈ meeting.participant_ids ∨ some u.id = meeting.organizer_id →
        get_meeting_endpoint db meeting_id u = .ok meeting)) ∧
    (∀ r : UserRole,
      get_meeting_endpoint db meeting_id ⟨u.id, r⟩ =
        get_meeting_endpoint db meeting_id u) := by
  refine ⟨fun hnone => ?_, fun meeting hsome => ⟨?_, ?_⟩, fun r => rfl⟩
  · simp [get_meeting_endpoint, get_meeting, hnone]
  · unfold get_meeting_endpoint get_meeting
    rw [hsome]
    by_cases hc : u.id ∉ meeting.participant_ids ∧ some u.id ≠ meeting.organizer_id
    · simp [hc]
    · simp [hc]
  · intro hacc
    unfold get_meeting_endpoint get_meeting
    rw [hsome]
    have hc : ¬ (u.id ∉ meeting.participant_ids ∧ some u.id ≠ meeting.organizer_id) := by
      tauto
    simp [hc]

/-- C9 witness: a one-meeting store where user 1 is organizer and sole
participant; an ADMIN with id 5 is denied, user 1 is served, and a missing
id yields `NotFound`. -/
theorem get_meeting_access_spec_witness :
    get_meeting_endpoint dbF 1 ⟨5, .admin⟩ = .error .forbiddenAccess ∧
    get_meeting_endpoint dbF 1 ⟨1, .user⟩ = .ok meetingF ∧
    get_meeting_endpoint dbF 7 ⟨5, .admin⟩ = .error (.objectNotFound "Meeting") := by
  refine ⟨?_, ?_, ?_⟩
  · exact ((get_meeting_access_spec dbF 1 ⟨5, .admin⟩).2.1 meetingF rfl).1.mpr (by decide)
  · exact ((get_meeting_access_spec dbF 1 ⟨1, .user⟩).2.1 meetingF rfl).2 (by decide)
  · exact (get_meeting_access_spec dbF 7 ⟨5, .admin⟩).1 rfl

/-- C4 (divergence witness): `join_team` only rejects a user already in the
**same** team.  User 1, already the sole member of team 1, joins team 2 by
its invite code; the call succeeds and user 1 is then a member of both
teams, violating the claimed at-most-one-team invariant. -/
theorem join_team_second_team_accepted :
    join_team [⟨1, "A", "a", [1]⟩, ⟨2, "B", "b", []⟩] ⟨1, .user⟩ "b" =
      .ok [⟨1, "A", "a", [1]⟩, ⟨2, "B", "b", [1]⟩] ∧
    (∀ t ∈ [Team.mk 1 "A" "a" [1], Team.mk 2 "B" "b" [1]], 1 ∈ t.members) := by
  constructor
  · rfl
  · decide

end BMS
